import Mathlib

/-!
Shallow embedding of the engine-resolution, engine-acquisition and mod-export
logic of `src/doom_v2.py` (Kit Cat Doom Player), together with theorems
checking the specification's claims about that code.

External effects (the search path, the GitHub metadata query, the downloader,
the extractor, the destination-directory walk, the staging filesystem) are
passed in explicitly as environment data; the control flow of the Python
functions is transcribed line by line.
-/

/- ## Character-list string helpers (Python string primitives) -/

/-- Bool test that the first character list is a prefix of the second. -/
def isStartOf : List Char → List Char → Bool
  | [], _ => true
  | _ :: _, [] => false
  | a :: as, b :: bs => a == b && isStartOf as bs

/-- Bool test that `needle` occurs as a contiguous run inside `hay`
(Python `needle in hay` on strings). -/
def occursIn (needle : List Char) : List Char → Bool
  | [] => isStartOf needle []
  | b :: bs => isStartOf needle (b :: bs) || occursIn needle bs

/-- Python `sub in s` for strings. -/
def strContains (s sub : String) : Bool :=
  occursIn sub.toList s.toList

/-- Python `s.endswith(suffix)`. -/
def strEndsWith (s suffix : String) : Bool :=
  isStartOf suffix.toList.reverse s.toList.reverse

/-- ASCII lower-casing of one character (Python `str.lower` on ASCII data). -/
def lowerChar (c : Char) : Char :=
  if 65 ≤ c.toNat ∧ c.toNat ≤ 90 then Char.ofNat (c.toNat + 32) else c

/-- Python `s.lower()` (ASCII). -/
def strLower (s : String) : String :=
  String.mk (s.toList.map lowerChar)

/-- Characters of the final path component: everything after the last slash. -/
def basenameAux : List Char → List Char → List Char
  | acc, [] => acc.reverse
  | acc, c :: cs => if c = '/' then basenameAux [] cs else basenameAux (c :: acc) cs

/-- Python `os.path.basename` (posix separators, as in the URLs and paths used here). -/
def basenameStr (s : String) : String :=
  String.mk (basenameAux [] s.toList)

/-- CPython `splitext` helper: true when a dot is preceded (anywhere earlier) by a
non-dot character, i.e. when the name has a non-empty extension.  The first
argument records whether a non-dot character has been seen so far. -/
def extSplitFound : Bool → List Char → Bool
  | _, [] => false
  | seen, c :: cs => if c = '.' then (seen || extSplitFound seen cs) else extSplitFound true cs

/-- The suffix of the character list starting at its last dot (empty when dotless). -/
def suffixFromLastDot : List Char → List Char → List Char
  | acc, [] => acc
  | acc, c :: cs => if c = '.' then suffixFromLastDot (c :: cs) cs else suffixFromLastDot acc cs

/-- Python `os.path.splitext(p)[1]`: the extension of the final path component,
dot included; empty when the component has only leading dots or no dot. -/
def extOf (p : String) : String :=
  let f := basenameAux [] p.toList
  if extSplitFound false f then String.mk (suffixFromLastDot [] f) else ""

/- ## Engine resolution (`find_engine`, doom_v2.py lines 150-157) -/

/-- The preference-ordered engine list (doom_v2.py line 20). -/
def ENGINES : List String := ["gzdoom", "chocolate-doom", "prboom", "zdoom"]

/-- `find_engine(engine_names, config)` (doom_v2.py lines 150-157).
`which` stands for `shutil.which` (a `some ""` result is treated as falsy, as
Python's `if path:` does); `askYes` is the user's answer to the download prompt
and `downloadResult` the value `download_gzdoom` would return. -/
def find_engine (which : String → Option String) (askYes : Bool)
    (downloadResult : Option String) : List String → Option String
  | [] => if askYes then downloadResult else none
  | n :: rest =>
    match which n with
    | some p => if p = "" then find_engine which askYes downloadResult rest else some p
    | none => find_engine which askYes downloadResult rest

/- ## Engine acquisition (`download_gzdoom`, doom_v2.py lines 54-147) -/

/-- One asset of the release-metadata response: the two consumed fields. -/
structure Asset where
  name : String
  url : String
deriving DecidableEq

/-- Outcome of the release-metadata query (doom_v2.py lines 62-75):
a parsed JSON body (with its Python truthiness and its `assets` list),
an HTTP error with its status code, or any other exception. -/
inductive MetaResult where
  | success (truthy : Bool) (assets : List Asset)
  | httpError (code : Nat)
  | exn
deriving DecidableEq

/-- The value of the local variable `data` after the try/except block
(doom_v2.py lines 62-75): `none` means the function already returned `None`
(fatal metadata failure); `some none` means `data is None` (the 404 path);
`some (some d)` means `data` holds a parsed body `d`. -/
def data_of : MetaResult → Option (Option (Bool × List Asset))
  | .success t as => some (some (t, as))
  | .httpError c => if c = 404 then some none else none
  | .exn => none

/-- The Windows branch guard of the asset scan (doom_v2.py line 82), on the
lowercased asset name. -/
def win_cond (system nm : String) : Bool :=
  decide (system = "Windows") && strContains nm "windows" && strEndsWith nm ".zip"

/-- The macOS branch guard of the asset scan (doom_v2.py line 84). -/
def mac_cond (system nm : String) : Bool :=
  decide (system = "Darwin") && (strContains nm "macos" || strContains nm "osx")

/-- The Linux branch guard of the asset scan (doom_v2.py line 86). -/
def linux_cond (system nm : String) : Bool :=
  decide (system = "Linux") && strContains nm "linux" && strEndsWith nm ".tar.gz"

/-- One iteration of the asset-selection loop body (doom_v2.py lines 80-87):
the if/elif chain possibly overwriting `asset_url`. -/
def asset_step (system : String) (a : Asset) (asset_url : Option String) : Option String :=
  if win_cond system (strLower a.name) then some a.url
  else if mac_cond system (strLower a.name) then some a.url
  else if linux_cond system (strLower a.name) then some a.url
  else asset_url

/-- The asset-selection loop (doom_v2.py lines 80-89), including the
`if asset_url: break` truthiness test (an empty URL does not break). -/
def pick_asset (system : String) : List Asset → Option String → Option String
  | [], acc => acc
  | a :: rest, acc =>
    match asset_step system a acc with
    | some u => if u = "" then pick_asset system rest (some u) else some u
    | none => pick_asset system rest none

/-- The hardcoded fallback download URLs (doom_v2.py lines 91-98). -/
def fallback_url (system : String) : String :=
  if system = "Windows" then
    "https://github.com/ZDoom/gzdoom/releases/download/g4.14.1/gzdoom-4-14-1-windows.zip"
  else if system = "Darwin" then
    "https://github.com/ZDoom/gzdoom/releases/download/g4.14.1/gzdoom-4-14-1-macos.zip"
  else
    "https://github.com/ZDoom/gzdoom/releases/download/g4.14.1/gzdoom_4.14.1_amd64.deb"

/-- The value of `asset_url` after the `if data:` statement (doom_v2.py lines
78-98), given the value of `data`: a truthy body is scanned, anything falsy
(including `None` from the 404 path) selects the hardcoded fallback. -/
def raw_asset_url (system : String) : Option (Bool × List Asset) → Option String
  | some (t, assets) => if t then pick_asset system assets none else some (fallback_url system)
  | none => some (fallback_url system)

/-- True exactly when control reaches the `else` branch of `if data:`
(doom_v2.py line 90), i.e. when the hardcoded fallback release is substituted. -/
def used_fallback (meta : MetaResult) : Bool :=
  match data_of meta with
  | some (some (t, _)) => !t
  | some none => true
  | none => false

/-- The destination directory for downloaded engine builds (doom_v2.py line 59),
relative to the script directory. -/
def dest_dir : String := "engines/gzdoom"

/-- The mode passed to `os.chmod` on the located executable
(doom_v2.py line 140): octal 755. -/
def chmod_mode : Nat := 493

/-- The per-file test of the executable search (doom_v2.py line 138):
lowercased name contains "gzdoom" and ends in ".exe" or has no extension. -/
def is_exe_candidate (file : String) : Bool :=
  let low := strLower file
  strContains low "gzdoom" && (strEndsWith low ".exe" || decide (extOf low = ""))

/-- The inner `for file in files:` loop of the executable search
(doom_v2.py lines 136-141): first hit in file order, joined to its directory. -/
def locate_files (rootDir : String) : List String → Option String
  | [] => none
  | f :: rest =>
    if is_exe_candidate f then some (rootDir ++ "/" ++ f) else locate_files rootDir rest

/-- The `os.walk` executable search (doom_v2.py lines 134-143): the walk is
given as the list of `(directory, files)` pairs in the order `os.walk` yields
them; the first per-directory hit stops the whole search. -/
def locate_exe : List (String × List String) → Option String
  | [] => none
  | (r, fs) :: rest =>
    match locate_files r fs with
    | some p => some p
    | none => locate_exe rest

/-- Environment of one `download_gzdoom` call: the platform name, the metadata
query's outcome, the downloader's success per URL, the extractor's success, and
the destination-tree walk seen by the executable search. -/
structure AcqEnv where
  system : String
  meta : MetaResult
  downloadOk : String → Bool
  extractOk : Bool
  walk : List (String × List String)

/-- Observable result of `download_gzdoom`: each failure constructor is one of
the function's `return None` sites (identified by the dialog it shows), and
`ok` carries the returned path with the mode given to `os.chmod`. -/
inductive AcqOutcome where
  | metaFailure
  | noAsset
  | downloadFailed
  | manualStep (archivePath : String)
  | extractFailed
  | exeNotFound
  | ok (exePath : String) (mode : Nat)
deriving DecidableEq

/-- The tail of `download_gzdoom` after extraction (doom_v2.py lines 133-147):
run the executable search, chmod and return the hit, else report failure. -/
def locate_outcome (walk : List (String × List String)) : AcqOutcome :=
  match locate_exe walk with
  | some p => .ok p chmod_mode
  | none => .exeNotFound

/-- `download_gzdoom(config)` (doom_v2.py lines 54-147), transcribed over an
explicit environment.  The `if not asset_url:` test treats an empty-string URL
as absent, as Python truthiness does. -/
def download_gzdoom (env : AcqEnv) : AcqOutcome :=
  match data_of env.meta with
  | none => .metaFailure
  | some d =>
    match raw_asset_url env.system d with
    | none => .noAsset
    | some u =>
      if u = "" then .noAsset
      else
        let archive_path := dest_dir ++ "/" ++ basenameStr u
        if env.downloadOk u then
          if strEndsWith archive_path ".zip" then
            if env.extractOk then locate_outcome env.walk else .extractFailed
          else if strEndsWith archive_path ".tar.gz" then
            if env.extractOk then locate_outcome env.walk else .extractFailed
          else if strEndsWith archive_path ".dmg" then .manualStep archive_path
          else locate_outcome env.walk
        else .downloadFailed

/-- The URL `urllib.request.urlretrieve` is invoked on (doom_v2.py line 106),
or `none` when `download_gzdoom` returns before any download is attempted. -/
def requested_url (env : AcqEnv) : Option String :=
  match data_of env.meta with
  | none => none
  | some d =>
    match raw_asset_url env.system d with
    | none => none
    | some u => if u = "" then none else some u

/-- Specification-side restatement of the platform naming convention of the
asset scan: the disjunction of the three branch guards of `asset_step`. -/
def asset_matches (system : String) (assetName : String) : Bool :=
  win_cond system (strLower assetName) || mac_cond system (strLower assetName)
    || linux_cond system (strLower assetName)

/-- The asset URL that actually gets downloaded from a truthy metadata body:
the scan result with the final `if not asset_url:` truthiness test applied. -/
def selected_for_download (system : String) (assets : List Asset) : Option String :=
  match pick_asset system assets none with
  | some u => if u = "" then none else some u
  | none => none

/- ## Engine determination inside `run_wad` (doom_v2.py lines 191-202) -/

/-- Result of the engine-determination block of `run_wad`: an engine path to
launch, the "engine not found on PATH" error return for a named choice, or the
silent return when no engine could be resolved. -/
inductive EngineResolution where
  | engine (path : String)
  | choiceNotFound (choice : String)
  | aborted
deriving DecidableEq

/-- Python truthiness of an optional string (`None` and `""` are falsy). -/
def truthyStr : Option String → Bool
  | some s => !decide (s = "")
  | none => false

/-- The engine-determination block of `run_wad` (doom_v2.py lines 191-202):
a truthy `custom_engine_path` is used verbatim; else a truthy non-"Auto"
`engine_choice` is looked up on the search path; else `find_engine` runs on
the global `ENGINES` list. -/
def run_wad_engine (custom choice : Option String) (which : String → Option String)
    (askYes : Bool) (downloadResult : Option String) : EngineResolution :=
  if truthyStr custom then .engine (custom.getD "")
  else if truthyStr choice && !decide (choice.getD "" = "Auto") then
    match which (choice.getD "") with
    | some p => if p = "" then .choiceNotFound (choice.getD "") else .engine p
    | none => .choiceNotFound (choice.getD "")
  else
    match find_engine which askYes downloadResult ENGINES with
    | some p => if p = "" then .aborted else .engine p
    | none => .aborted

/- ## Mod export (`export_mods`, doom_v2.py lines 260-298) -/

/-- Contents of one input file: an opaque plain file, or a zip archive with its
entry list (entry name paths relative to the archive root, with contents). -/
inductive FileData where
  | plain (content : String)
  | archive (entries : List (String × String))
deriving DecidableEq

/-- The archive-extension test of the export loop (doom_v2.py lines 281-282):
`os.path.splitext(p)[1].lower() in ['.zip', '.pk3']`. -/
def isArchiveExt (p : String) : Bool :=
  let ext := strLower (extOf p)
  decide (ext = ".zip") || decide (ext = ".pk3")

/-- Writing one file into the staging directory: an existing file of the same
relative name is overwritten (filesystem semantics; the entry set is what the
final archive walk sees). -/
def stagePut (staging : List (String × FileData)) (nm : String) (v : FileData) :
    List (String × FileData) :=
  (staging.filter (fun e => !decide (e.1 = nm))) ++ [(nm, v)]

/-- Staging one mod path (one iteration of the loop at doom_v2.py lines
280-286): archive extensions are fully extracted into the staging area, other
files are copied under their base name.  `none` models the exception raised
when a path with an archive extension is not in fact a zip file (the whole
export then fails). -/
def stage_mod (staging : List (String × FileData)) (p : String) (dat : FileData) :
    Option (List (String × FileData)) :=
  if isArchiveExt p then
    match dat with
    | .archive entries =>
      some (entries.foldl (fun st e => stagePut st e.1 (.plain e.2)) staging)
    | .plain _ => none
  else
    some (stagePut staging (basenameStr p) dat)

/-- Staging every mod in input order (doom_v2.py lines 280-286). -/
def stage_all (staging : List (String × FileData)) :
    List (String × FileData) → Option (List (String × FileData))
  | [] => some staging
  | (p, dat) :: rest =>
    match stage_mod staging p dat with
    | some st => stage_all st rest
    | none => none

/-- Result of `export_mods`: the "No mods to export." informational return (no
output file is opened or written), a written output archive with its entry set,
or the "Failed to export" error return. -/
inductive ExportResult where
  | nothingToExport
  | written (entries : List (String × FileData))
  | failed
deriving DecidableEq

/-- `export_mods(listbox, config, ...)` (doom_v2.py lines 260-298) over the mod
list read from the listbox, each mod given with its path and file contents.
The output archive's entries are the staged files under their paths relative
to the staging root (the final `os.walk` re-packing loop, lines 287-292). -/
def export_mods (mods : List (String × FileData)) (outPath : String) : ExportResult :=
  if mods.isEmpty then .nothingToExport
  else
    match stage_all [] mods with
    | some st => .written st
    | none => .failed

/- ## Concrete sample environments used by witnesses -/

/-- A sample search-path oracle resolving exactly the name "prboom". -/
def which_demo : String → Option String :=
  fun n => if n = "prboom" then some "/usr/games/prboom" else none


/-- Search-path well-formedness over a name list: every hit of `which` on the
list is a non-empty path (as `shutil.which` guarantees: it returns `None` or a
real path, never the empty string). -/
def which_ok (which : String → Option String) (names : List String) : Bool :=
  names.all (fun n => match which n with | some p => !decide (p = "") | none => true)

/-- The walk-order flattening of an `os.walk` result into `(directory, file)`
pairs, the order in which the executable search visits files. -/
def walkFiles (walk : List (String × List String)) : List (String × String) :=
  walk.flatMap (fun rf => rf.2.map (fun f => (rf.1, f)))

/-- A sample acquisition environment: a truthy metadata body with one matching
Windows asset, a downloader and extractor that succeed, and a destination walk
holding one executable. -/
def acq_env_demo : AcqEnv :=
  AcqEnv.mk "Windows"
    (.success true [Asset.mk "gzdoom-4-windows.zip" "https://dl.example.com/gzdoom-4-windows.zip"])
    (fun _ => true) true [("engines/gzdoom", ["readme.txt", "gzdoom.exe"])]

/- ## Theorems -/

/-- C1: for every preference list of engine names in which at least one entry
is resolvable on the process search path, `find_engine` returns the path of
the first resolvable entry in list order, regardless of whether later entries
are also resolvable. -/
theorem find_engine_first_resolvable
    (which : String → Option String) (askYes : Bool) (dl : Option String)
    (names : List String)
    (hwf : which_ok which names = true)
    (hres : names.any (fun n => (which n).isSome) = true) :
    find_engine which askYes dl names = names.findSome? which := by
  induction names with
  | nil => simp at hres
  | cons n rest ih =>
    simp only [which_ok, List.all_cons, Bool.and_eq_true] at hwf
    rw [List.any_cons, Bool.or_eq_true] at hres
    cases h : which n with
    | none =>
      have e1 : find_engine which askYes dl (n :: rest) = find_engine which askYes dl rest := by
        simp [find_engine, h]
      have e2 : (n :: rest).findSome? which = rest.findSome? which :=
        List.findSome?_cons_of_isNone _ (by simp [h])
      rw [e1, e2]
      refine ih hwf.2 ?_
      rcases hres with hl | hr
      · rw [h] at hl; simp at hl
      · exact hr
    | some p =>
      have hp : ¬ p = "" := by
        have h2 := hwf.1
        rw [h] at h2
        simpa using h2
      have e1 : find_engine which askYes dl (n :: rest) = some p := by
        simp [find_engine, h, hp]
      have e2 : (n :: rest).findSome? which = some p := by
        rw [List.findSome?_cons_of_isSome _ (by simp [h]), h]
      rw [e1, e2]

/-- C1 witness: on a concrete search path resolving only "prboom", the engine
list resolves to that path. -/
theorem find_engine_first_resolvable_witness :
    find_engine which_demo false none ENGINES = some "/usr/games/prboom" :=
  (find_engine_first_resolvable which_demo false none ENGINES (by decide) (by decide)).trans
    (by decide)

/-- C5: a custom engine path that names an existing executable is returned as
the engine even when preference-list entries are resolvable on the search
path; the preference list is bypassed entirely. -/
theorem run_wad_custom_engine_wins
    (custom : String) (hne : custom ≠ "")
    (isExecFile : String → Bool) (hexists : isExecFile custom = true)
    (choice : Option String) (which : String → Option String)
    (askYes : Bool) (dl : Option String)
    (hres : (ENGINES.findSome? which).isSome = true) :
    run_wad_engine (some custom) choice which askYes dl = .engine custom := by
  simp [run_wad_engine, truthyStr, hne]

/-- C5 witness: a concrete custom path wins over a search path that resolves
"prboom". -/
theorem run_wad_custom_engine_wins_witness :
    run_wad_engine (some "/opt/engines/mydoom") none which_demo false none
      = .engine "/opt/engines/mydoom" :=
  run_wad_custom_engine_wins "/opt/engines/mydoom" (by decide) (fun _ => true) rfl none
    which_demo false none (by decide)

/-- C9: a non-empty custom engine path is used as the engine with no check
that it exists or is executable, and the preference-list search is never
consulted (the result is the same for any two search-path oracles). -/
theorem run_wad_custom_engine_unchecked
    (custom : String) (hne : custom ≠ "")
    (isExecFile : String → Bool) (hmissing : isExecFile custom = false)
    (choice : Option String) (which which2 : String → Option String)
    (askYes : Bool) (dl : Option String) :
    run_wad_engine (some custom) choice which askYes dl = .engine custom
    ∧ run_wad_engine (some custom) choice which askYes dl
        = run_wad_engine (some custom) choice which2 askYes dl := by
  constructor <;> simp [run_wad_engine, truthyStr, hne]

/-- C9 witness: a path naming no existing file is still returned verbatim. -/
theorem run_wad_custom_engine_unchecked_witness :
    run_wad_engine (some "/no/such/file") none which_demo false none
      = .engine "/no/such/file" :=
  (run_wad_custom_engine_unchecked "/no/such/file" (by decide) (fun _ => false) rfl none
    which_demo which_demo false none).1

/-- C7: exporting an empty add-on list returns the distinguished "nothing to
export" result (`messagebox.showinfo`, not an error dialog); the function
returns before the save dialog, so no output file is written. -/
theorem export_mods_empty (outPath : String) :
    export_mods [] outPath = .nothingToExport := rfl

/-- C6: merging two plain files with the same base name produces an output
archive with exactly one entry under that base name, holding the second
file's content (last write into the staging area wins). -/
theorem export_mods_same_basename
    (pA pB cA cB outPath : String)
    (hA : isArchiveExt pA = false) (hB : isArchiveExt pB = false)
    (hsame : basenameStr pA = basenameStr pB) :
    export_mods [(pA, .plain cA), (pB, .plain cB)] outPath
      = .written [(basenameStr pB, .plain cB)] := by
  simp [export_mods, stage_all, stage_mod, stagePut, hA, hB, hsame]

/-- C6 witness at two concrete .wad files sharing the base name "mod.wad". -/
theorem export_mods_same_basename_witness :
    export_mods [("x/mod.wad", .plain "A"), ("y/mod.wad", .plain "B")] "out.pk3"
      = .written [("mod.wad", .plain "B")] :=
  (export_mods_same_basename "x/mod.wad" "y/mod.wad" "A" "B" "out.pk3"
    (by decide) (by decide) (by decide)).trans (by decide)

/-- C8: merging two plain files with distinct base names produces an output
archive with exactly two entries, one under each file's base name. -/
theorem export_mods_distinct_basenames
    (pA pB cA cB outPath : String)
    (hA : isArchiveExt pA = false) (hB : isArchiveExt pB = false)
    (hdiff : basenameStr pA ≠ basenameStr pB) :
    export_mods [(pA, .plain cA), (pB, .plain cB)] outPath
      = .written [(basenameStr pA, .plain cA), (basenameStr pB, .plain cB)] := by
  simp [export_mods, stage_all, stage_mod, stagePut, hA, hB, hdiff]

/-- C8 witness at two concrete .wad files with distinct base names. -/
theorem export_mods_distinct_basenames_witness :
    export_mods [("mods/alpha.wad", .plain "A"), ("mods/beta.wad", .plain "B")] "out.pk3"
      = .written [("alpha.wad", .plain "A"), ("beta.wad", .plain "B")] :=
  (export_mods_distinct_basenames "mods/alpha.wad" "mods/beta.wad" "A" "B" "out.pk3"
    (by decide) (by decide) (by decide)).trans (by decide)

/-- None of the three hardcoded fallback URLs is the empty string, so the
`if not asset_url:` truthiness test always passes on the fallback path. -/
theorem fallback_url_ne_empty (system : String) : fallback_url system ≠ "" := by
  unfold fallback_url
  split_ifs <;> decide

/-- C2 (amended): the hardcoded fallback release is substituted exactly when
the metadata variable `data` ends up falsy, which happens on an HTTP 404
error, and also on a successful query whose parsed JSON body is falsy (for
example `null` or an empty object).  Whenever the fallback is substituted the
acquisition proceeds to download the fallback URL of the given platform; a
non-404 HTTP error or any other query exception terminates the acquisition
with a failure and no download attempted. -/
theorem fallback_iff_data_falsy (env : AcqEnv) :
    (used_fallback env.meta = true ↔
      env.meta = .httpError 404 ∨ ∃ assets, env.meta = .success false assets)
    ∧ (used_fallback env.meta = true →
        requested_url env = some (fallback_url env.system))
    ∧ (∀ c, c ≠ 404 → env.meta = .httpError c →
        download_gzdoom env = .metaFailure ∧ requested_url env = none)
    ∧ (env.meta = .exn →
        download_gzdoom env = .metaFailure ∧ requested_url env = none) := by
  obtain ⟨sys, meta, dl, ex, wk⟩ := env
  cases meta with
  | success t assets =>
    cases t with
    | false =>
      refine ⟨by simp [used_fallback, data_of], ?_, ?_, ?_⟩
      · intro _
        simp [requested_url, data_of, raw_asset_url, fallback_url_ne_empty]
      · intro c hc h; simp at h
      · intro h; simp at h
    | true =>
      refine ⟨by simp [used_fallback, data_of], ?_, ?_, ?_⟩
      · intro h; simp [used_fallback, data_of] at h
      · intro c hc h; simp at h
      · intro h; simp at h
  | httpError c =>
    by_cases hc : c = 404
    · subst hc
      refine ⟨by simp [used_fallback, data_of], ?_, ?_, ?_⟩
      · intro _
        simp [requested_url, data_of, raw_asset_url, fallback_url_ne_empty]
      · intro c2 hc2 h
        injection h with h2
        exact absurd h2.symm hc2
      · intro h; simp at h
    · refine ⟨by simp [used_fallback, data_of, hc], ?_, ?_, ?_⟩
      · intro h; simp [used_fallback, data_of, hc] at h
      · intro c2 hc2 h
        injection h with h2
        subst h2
        exact ⟨by simp [download_gzdoom, data_of, hc], by simp [requested_url, data_of, hc]⟩
      · intro h; simp at h
  | exn =>
    refine ⟨by simp [used_fallback, data_of], ?_, ?_, ?_⟩
    · intro h; simp [used_fallback, data_of] at h
    · intro c hc h; simp at h
    · intro _
      exact ⟨by simp [download_gzdoom, data_of], by simp [requested_url, data_of]⟩

/-- C2 witness: a concrete non-404 HTTP error (500) terminates the acquisition
with the metadata failure and no download. -/
theorem fallback_iff_data_falsy_witness :
    download_gzdoom (AcqEnv.mk "Windows" (.httpError 500) (fun _ => true) true [])
      = .metaFailure :=
  ((fallback_iff_data_falsy (AcqEnv.mk "Windows" (.httpError 500) (fun _ => true) true [])).2.2.1
    500 (by decide) rfl).1

/-- C2 counterexample: a successful metadata query whose parsed JSON body is
falsy (an HTTP 200 response with body `null` or `{}`) also substitutes the
hardcoded fallback and proceeds to download it, although the query did not
fail with a 404 — refuting "only if the query fails with a 404". -/
theorem fallback_without_404_counterexample :
    used_fallback (.success false []) = true
    ∧ MetaResult.success false [] ≠ .httpError 404
    ∧ requested_url (AcqEnv.mk "Darwin" (.success false []) (fun _ => true) true [])
        = some (fallback_url "Darwin") :=
  ⟨rfl, by decide, rfl⟩

/-- The if/elif chain of the asset loop assigns the asset's URL exactly when
the lowercased name matches the current platform's convention, and otherwise
keeps the previous value of `asset_url`. -/
theorem asset_step_eq (system : String) (a : Asset) (acc : Option String) :
    asset_step system a acc
      = if asset_matches system a.name then some a.url else acc := by
  unfold asset_step asset_matches
  cases h1 : win_cond system (strLower a.name) <;>
    cases h2 : mac_cond system (strLower a.name) <;>
      cases h3 : linux_cond system (strLower a.name) <;>
        simp [h1, h2, h3]

/-- The asset-selection loop computes the first asset whose name matches the
platform convention and whose URL is non-empty, given that the accumulator
holds nothing or an empty (falsy) URL. -/
theorem pick_asset_spec (system : String) (assets : List Asset) (acc : Option String)
    (hacc : acc = none ∨ acc = some "") :
    (match pick_asset system assets acc with
      | some u => if u = "" then none else some u
      | none => none)
      = (assets.find? (fun a => asset_matches system a.name && !decide (a.url = ""))).map
          Asset.url := by
  induction assets generalizing acc with
  | nil =>
    rcases hacc with h | h <;> subst h <;> simp [pick_asset]
  | cons a rest ih =>
    by_cases hm : asset_matches system a.name = true
    · by_cases hu : a.url = ""
      · have e : pick_asset system (a :: rest) acc = pick_asset system rest (some "") := by
          rw [pick_asset, asset_step_eq, if_pos hm]
          simp [hu]
        rw [e, ih (some "") (Or.inr rfl), List.find?_cons_of_neg _ (by simp [hu])]
      · have e : pick_asset system (a :: rest) acc = some a.url := by
          rw [pick_asset, asset_step_eq, if_pos hm]
          simp [hu]
        rw [e, List.find?_cons_of_pos _ (by simp [hm, hu])]
        simp [hu]
    · have e : pick_asset system (a :: rest) acc = pick_asset system rest acc := by
        rw [pick_asset, asset_step_eq, if_neg hm]
        rcases hacc with h | h <;> subst h <;> simp
      rw [e, ih acc hacc, List.find?_cons_of_neg _ (by simp [hm])]

/-- C3 (amended): from a truthy metadata body, the asset selected for download
is the first one, in the order the metadata returned, whose name matches the
current platform's convention AND whose download URL is non-empty; a matching
asset with an empty URL does not stop the scan and is never downloaded. -/
theorem asset_selection_first_nonempty_match (system : String) (assets : List Asset)
    (dl : String → Bool) (ex : Bool) (wk : List (String × List String)) :
    selected_for_download system assets
      = (assets.find? (fun a => asset_matches system a.name && !decide (a.url = ""))).map
          Asset.url
    ∧ requested_url (AcqEnv.mk system (.success true assets) dl ex wk)
        = selected_for_download system assets := by
  refine ⟨pick_asset_spec system assets none (Or.inl rfl), ?_⟩
  cases h : pick_asset system assets none with
  | none => simp [requested_url, data_of, raw_asset_url, selected_for_download, h]
  | some u => simp [requested_url, data_of, raw_asset_url, selected_for_download, h]

/-- C3 counterexample: the first asset matching the Windows convention has an
empty `browser_download_url`; the scan does not stop on it and a later
matching asset is the one selected for download — refuting "if an earlier
asset matches, later matching assets are never selected". -/
theorem asset_selection_counterexample :
    asset_matches "Windows" "gzdoom-4-windows.zip" = true
    ∧ selected_for_download "Windows"
        [Asset.mk "gzdoom-4-windows.zip" "",
         Asset.mk "extras-windows.zip" "https://example.com/extras.zip"]
        = some "https://example.com/extras.zip"
    ∧ ("" : String) ≠ "https://example.com/extras.zip" :=
  ⟨by decide, by decide, by decide⟩

/-- A string ending in ".tar.gz" cannot also end in ".zip" (the last
characters differ), so the extraction if/elif chain is unambiguous. -/
theorem endsWith_targz_not_zip (s : String) (h : strEndsWith s ".tar.gz" = true) :
    strEndsWith s ".zip" = false := by
  have e1 : (".tar.gz" : String).toList.reverse = ['z', 'g', '.', 'r', 'a', 't', '.'] := rfl
  have e2 : (".zip" : String).toList.reverse = ['p', 'i', 'z', '.'] := rfl
  unfold strEndsWith at h ⊢
  rw [e1] at h
  rw [e2]
  cases hrev : s.toList.reverse with
  | nil => rw [hrev] at h; simp [isStartOf] at h
  | cons c cs =>
    rw [hrev] at h
    simp only [isStartOf, Bool.and_eq_true, beq_iff_eq] at h
    obtain ⟨hc, -⟩ := h
    subst hc
    simp [isStartOf]

/-- The inner file loop returns the first candidate file of the directory,
joined to the directory path. -/
theorem locate_files_spec (r : String) (fs : List String) :
    locate_files r fs = (fs.find? is_exe_candidate).map (fun f => r ++ "/" ++ f) := by
  induction fs with
  | nil => simp [locate_files]
  | cons f rest ih =>
    by_cases h : is_exe_candidate f = true
    · simp [locate_files, h]
    · simp [locate_files, h, ih]

/-- The executable search returns the first candidate file in walk order. -/
theorem locate_exe_spec (walk : List (String × List String)) :
    locate_exe walk
      = ((walkFiles walk).find? (fun rf => is_exe_candidate rf.2)).map
          (fun rf => rf.1 ++ "/" ++ rf.2) := by
  induction walk with
  | nil => simp [locate_exe, walkFiles]
  | cons hd rest ih =>
    obtain ⟨r, fs⟩ := hd
    have e0 : locate_exe ((r, fs) :: rest)
        = match locate_files r fs with
          | some p => some p
          | none => locate_exe rest := rfl
    have e1 : walkFiles ((r, fs) :: rest) = fs.map (fun f => (r, f)) ++ walkFiles rest := rfl
    have e2 : ((fun rf => is_exe_candidate rf.2) ∘ (fun f => ((r, f) : String × String)))
        = is_exe_candidate := rfl
    rw [e0, locate_files_spec, e1]
    cases hf : fs.find? is_exe_candidate with
    | some f0 =>
      simp [List.find?_append, List.find?_map, e2, hf]
    | none =>
      simp [List.find?_append, List.find?_map, e2, hf, ih]

/-- C4: after a successful download of a zip or tar.gz asset and a successful
extraction, `download_gzdoom` returns the path of the first file, in walk
order over the destination tree, whose lowercased name contains "gzdoom" and
either ends in ".exe" or has no extension, after passing mode 0o755 (all
three execute bits set) to `os.chmod` on it; if no such file exists anywhere
in the tree, the outcome is the executable-not-located failure. -/
theorem exe_located_after_extraction (env : AcqEnv) (u : String)
    (hurl : requested_url env = some u)
    (hdl : env.downloadOk u = true)
    (harc : strEndsWith (dest_dir ++ "/" ++ basenameStr u) ".zip" = true
        ∨ strEndsWith (dest_dir ++ "/" ++ basenameStr u) ".tar.gz" = true)
    (hex : env.extractOk = true) :
    download_gzdoom env = locate_outcome env.walk
    ∧ locate_exe env.walk
        = ((walkFiles env.walk).find? (fun rf => is_exe_candidate rf.2)).map
            (fun rf => rf.1 ++ "/" ++ rf.2)
    ∧ (∀ p, locate_exe env.walk = some p → locate_outcome env.walk = .ok p chmod_mode)
    ∧ (locate_exe env.walk = none → locate_outcome env.walk = .exeNotFound)
    ∧ Nat.testBit chmod_mode 0 = true ∧ Nat.testBit chmod_mode 3 = true
    ∧ Nat.testBit chmod_mode 6 = true := by
  refine ⟨?_, locate_exe_spec env.walk, ?_, ?_, by decide, by decide, by decide⟩
  · cases hd : data_of env.meta with
    | none => simp [requested_url, hd] at hurl
    | some d =>
      cases hr : raw_asset_url env.system d with
      | none => simp [requested_url, hd, hr] at hurl
      | some u2 =>
        simp only [requested_url, hd, hr] at hurl
        by_cases hu2 : u2 = ""
        · simp [hu2] at hurl
        · rw [if_neg hu2, Option.some_inj] at hurl
          subst hurl
          rcases harc with hz | ht
          · simp [download_gzdoom, hd, hr, hu2, hdl, hex, hz]
          · have hnz := endsWith_targz_not_zip _ ht
            simp [download_gzdoom, hd, hr, hu2, hdl, hex, ht, hnz]
  · intro p hp
    simp [locate_outcome, hp]
  · intro hp
    simp [locate_outcome, hp]

/-- C4 witness: a concrete acquisition of a Windows zip asset locates
"gzdoom.exe" in the destination tree and returns it with mode 0o755. -/
theorem exe_located_after_extraction_witness :
    download_gzdoom acq_env_demo = .ok "engines/gzdoom/gzdoom.exe" chmod_mode :=
  ((exe_located_after_extraction acq_env_demo "https://dl.example.com/gzdoom-4-windows.zip"
    (by decide) rfl (Or.inl (by decide)) rfl).1).trans (by decide)

/-- C10: on the hardcoded Linux fallback URL (a ".deb" file, ending in none of
".zip", ".tar.gz" or ".dmg"), the extraction step is silently skipped with no
error reported (the outcome is the same whether the extractor would succeed
or fail), and the executable search then runs over the destination walk —
which after the download contains only the un-extracted archive. -/
theorem deb_fallback_skips_extraction
    (dl : String → Bool) (ex : Bool) (wk : List (String × List String))
    (hdl : dl (fallback_url "Linux") = true) :
    requested_url (AcqEnv.mk "Linux" (.httpError 404) dl ex wk)
        = some (fallback_url "Linux")
    ∧ strEndsWith (dest_dir ++ "/" ++ basenameStr (fallback_url "Linux")) ".zip" = false
    ∧ strEndsWith (dest_dir ++ "/" ++ basenameStr (fallback_url "Linux")) ".tar.gz" = false
    ∧ strEndsWith (dest_dir ++ "/" ++ basenameStr (fallback_url "Linux")) ".dmg" = false
    ∧ download_gzdoom (AcqEnv.mk "Linux" (.httpError 404) dl ex wk) = locate_outcome wk := by
  have e : download_gzdoom (AcqEnv.mk "Linux" (.httpError 404) dl ex wk)
      = if dl (fallback_url "Linux") then locate_outcome wk else AcqOutcome.downloadFailed := rfl
  refine ⟨rfl, rfl, rfl, rfl, ?_⟩
  rw [e]
  simp [hdl]

/-- C10 witness: with a destination walk holding only the downloaded
"gzdoom_4.14.1_amd64.deb" (and an extractor that would fail if invoked), the
acquisition reports executable-not-located without any extraction error. -/
theorem deb_fallback_skips_extraction_witness :
    download_gzdoom (AcqEnv.mk "Linux" (.httpError 404) (fun _ => true) false
        [(dest_dir, ["gzdoom_4.14.1_amd64.deb"])]) = .exeNotFound :=
  ((deb_fallback_skips_extraction (fun _ => true) false [(dest_dir, ["gzdoom_4.14.1_amd64.deb"])]
    rfl).2.2.2.2).trans (by decide)
